import Mathlib

/-!
Shallow embedding of the xpybutil event/property core (event.py, util.py,
ewmh.py, keybind.py) and proofs about its dispatch, queueing, packing,
atom-cache and grab-refcounting behaviour.

Machine integers are modelled as `Nat` with explicit `% 2 ^ 32` bounds where
the Python `struct` module would range-check; fallible Python code (assertion
failures, struct.error, IndexError) is modelled with `Option`/`Except`.
-/

namespace Xpybutil

/-! ## Byte-level packing: models Python struct.pack / struct.unpack with
    little-endian unsigned 16-bit ('H') and 32-bit ('I') words. -/

def packU16LE (n : Nat) : List Nat := [n % 256, n / 256 % 256]

def packU32LE (n : Nat) : List Nat :=
  [n % 256, n / 256 % 256, n / 65536 % 256, n / 16777216 % 256]

/-- `struct.pack('I' * len(ws), *ws)` as a byte list. -/
def packWords : List Nat → List Nat
  | [] => []
  | w :: ws => packU32LE w ++ packWords ws

def unpackU32LE (b0 b1 b2 b3 : Nat) : Nat :=
  b0 + 256 * b1 + 65536 * b2 + 16777216 * b3

/-- `struct.unpack('I' * k, buf)`: reads little-endian 32-bit words. -/
def unpackWords : List Nat → List Nat
  | b0 :: b1 :: b2 :: b3 :: rest => unpackU32LE b0 b1 b2 b3 :: unpackWords rest
  | _ => []

/-- `event.pack_client_message(window, message_type, *data)`:
`assert len(data) <= 5`, right-pad `data` with zeros to five words, then
`struct.pack('BBH7I', 33, 32, 0, window, message_type, *data)`.
`none` models the assertion failure / `struct.error` on an out-of-range word. -/
def pack_client_message (window message_type : Nat) (data : List Nat) : Option (List Nat) :=
  if data.length ≤ 5 ∧ window < 2 ^ 32 ∧ message_type < 2 ^ 32 ∧ data.all (· < 2 ^ 32) then
    some ([33, 32] ++ packU16LE 0 ++
      packWords (window :: message_type :: (data ++ List.replicate (5 - data.length) 0)))
  else none

theorem packWords_length (ws : List Nat) : (packWords ws).length = 4 * ws.length := by
  induction ws with
  | nil => rfl
  | cons w ws ih => simp [packWords, packU32LE, ih]; ring

theorem packWords_append (xs ys : List Nat) :
    packWords (xs ++ ys) = packWords xs ++ packWords ys := by
  induction xs with
  | nil => rfl
  | cons x xs ih => simp [packWords, ih]

/-- C3 helper: recomposing the four little-endian bytes of a word below `2 ^ 32`
recovers the word. -/
theorem unpack_pack_u32 (n : Nat) (h : n < 2 ^ 32) :
    unpackU32LE (n % 256) (n / 256 % 256) (n / 65536 % 256) (n / 16777216 % 256) = n := by
  unfold unpackU32LE
  omega

theorem unpackWords_packWords (ws : List Nat) (h : ∀ w ∈ ws, w < 2 ^ 32) :
    unpackWords (packWords ws) = ws := by
  induction ws with
  | nil => rfl
  | cons w ws ih =>
    have hw : w < 2 ^ 32 := h w (List.mem_cons_self _ _)
    simp only [packWords, packU32LE, List.cons_append, List.nil_append, unpackWords]
    rw [unpack_pack_u32 w hw]
    simp [ih (fun x hx => h x (List.mem_cons_of_mem _ hx))]

/-- C3: `pack_client_message` rejects more than five data words, zero-pads
fewer than five on the right, always yields a 32-byte buffer, and on
`window=5, message_type=9, data=[1,2]` produces the exact wire bytes. -/
theorem c3_pack_client_message :
    (∀ w t d, 5 < List.length d → pack_client_message w t d = none) ∧
    (∀ w t (d : List Nat), d.length ≤ 5 → w < 2 ^ 32 → t < 2 ^ 32 →
      d.all (· < 2 ^ 32) = true →
      ∃ buf, pack_client_message w t d = some buf ∧ buf.length = 32 ∧
        pack_client_message w t (d ++ List.replicate (5 - d.length) 0) = some buf) ∧
    pack_client_message 5 9 [1, 2] =
      some [33, 32, 0, 0, 5, 0, 0, 0, 9, 0, 0, 0, 1, 0, 0, 0, 2, 0, 0, 0,
            0, 0, 0, 0, 0, 0, 0, 0, 0, 0, 0, 0] := by
  refine ⟨?_, ?_, by decide⟩
  · intro w t d hd
    unfold pack_client_message
    rw [if_neg]
    intro hcon
    omega
  · intro w t d hlen hw ht hall
    have hcond : d.length ≤ 5 ∧ w < 2 ^ 32 ∧ t < 2 ^ 32 ∧ d.all (· < 2 ^ 32) = true :=
      ⟨hlen, hw, ht, hall⟩
    refine ⟨[33, 32] ++ packU16LE 0 ++
      packWords (w :: t :: (d ++ List.replicate (5 - d.length) 0)), ?_, ?_, ?_⟩
    · unfold pack_client_message
      rw [if_pos hcond]
    · have hpadlen : (d ++ List.replicate (5 - d.length) 0).length = 5 := by
        simp [List.length_append, List.length_replicate]; omega
      simp [packWords, packU32LE, packU16LE, List.length_append, packWords_length, hpadlen]
    · have hpadlen : (d ++ List.replicate (5 - d.length) 0).length = 5 := by
        simp [List.length_append, List.length_replicate]; omega
      have hall2 : (d ++ List.replicate (5 - d.length) 0).all (· < 2 ^ 32) = true := by
        simp only [List.all_append, Bool.and_eq_true]
        refine ⟨hall, ?_⟩
        simp only [List.all_eq_true]
        intro x hx
        have : x = 0 := List.eq_of_mem_replicate hx
        simp [this]
      have hcond2 : (d ++ List.replicate (5 - d.length) 0).length ≤ 5 ∧ w < 2 ^ 32 ∧
          t < 2 ^ 32 ∧ (d ++ List.replicate (5 - d.length) 0).all (· < 2 ^ 32) = true :=
        ⟨le_of_eq hpadlen, hw, ht, hall2⟩
      unfold pack_client_message
      rw [if_pos hcond2]
      rw [hpadlen]
      simp

/-- C3 witness: the general contract instantiated at `window=5, message_type=9,
data=[1,2]`. -/
theorem c3_pack_client_message_witness :
    ∃ buf, pack_client_message 5 9 [1, 2] = some buf ∧ buf.length = 32 ∧
      pack_client_message 5 9 ([1, 2] ++ List.replicate (5 - List.length [1, 2]) 0) = some buf :=
  c3_pack_client_message.2.1 5 9 [1, 2] (by decide) (by decide) (by decide) (by decide)

/-! ## Event dispatch (event.py `connect` / `disconnect` / `main`).

An X event is modelled by its runtime class (`e.__class__`) together with its
optional window-identifying attributes: `hasattr(e, 'window')` is `e.window =
some w`.  Callbacks are opaque handles (`Nat`); dispatching an event returns
the list of callbacks invoked, in invocation order. -/

inductive EventClass where
  | MappingNotifyEvent
  | MapRequestEvent
  | other (code : Nat)
deriving DecidableEq

structure XEvent where
  cls : EventClass
  window : Option Nat
  event : Option Nat
  owner : Option Nat
  requestor : Option Nat
deriving DecidableEq

/-- The routing window computed by the body of `event.main()`:
`MappingNotify` events keep `w = None`; `MapRequest` events are forced to the
root window; otherwise the first present of `window`, `event`, `owner`,
`requestor` is used (`w` stays `None` when none is present). -/
def routingWindow (root : Nat) (e : XEvent) : Option Nat :=
  match e.cls with
  | .MappingNotifyEvent => none
  | .MapRequestEvent => some root
  | .other _ =>
    match e.window with
    | some w => some w
    | none =>
      match e.event with
      | some w => some w
      | none =>
        match e.owner with
        | some w => some w
        | none =>
          match e.requestor with
          | some w => some w
          | none => none

/-- A callback-registry key: `(event class, window-or-None)`. -/
abbrev CBKey := EventClass × Option Nat

/-- `__callbacks = defaultdict(list)`, viewed as the total map it represents. -/
def emptyCallbacks : CBKey → List Nat := fun _ => []

/-- `event.connect(event_name, window, callback)`:
`__callbacks[key].append(callback)`. -/
def connect (cbs : CBKey → List Nat) (key : CBKey) (cb : Nat) : CBKey → List Nat :=
  fun k => if k = key then cbs key ++ [cb] else cbs k

/-- A registry built by a sequence of `connect` calls, in call order. -/
def registerAll (regs : List (CBKey × Nat)) : CBKey → List Nat :=
  regs.foldl (fun cbs r => connect cbs r.1 r.2) emptyCallbacks

/-- One iteration of the inner loop of `event.main()`: look up
`__callbacks.get((e.__class__, w), [])` for the routing window `w` and invoke
each callback in order.  Returns the invoked callbacks in invocation order. -/
def dispatch (cbs : CBKey → List Nat) (root : Nat) (e : XEvent) : List Nat :=
  cbs (e.cls, routingWindow root e)

theorem registerAll_go (regs : List (CBKey × Nat)) (f : CBKey → List Nat) (k : CBKey) :
    regs.foldl (fun cbs r => connect cbs r.1 r.2) f k
      = f k ++ (regs.filter (fun r => r.1 = k)).map (·.2) := by
  induction regs generalizing f with
  | nil => simp
  | cons r regs ih =>
    simp only [List.foldl_cons, ih, List.filter_cons]
    by_cases h : r.1 = k
    · subst h
      simp [connect]
    · have hne : ¬ k = r.1 := fun hk => h hk.symm
      simp only [connect]
      rw [if_neg hne]
      simp [h]

/-- The registry after a sequence of `connect` calls maps each key to exactly
the callbacks registered under it, in registration order. -/
theorem registerAll_eq (regs : List (CBKey × Nat)) (k : CBKey) :
    registerAll regs k = (regs.filter (fun r => r.1 = k)).map (·.2) := by
  unfold registerAll
  rw [registerAll_go]
  simp [emptyCallbacks]

/-- C1: for every dequeued event the routing window is chosen in priority
order — MappingNotify routes with no window, MapRequest routes to the root
window regardless of its embedded `window` field, and otherwise the first
present of `window`/`event`/`owner`/`requestor` is used; dispatch then invokes
exactly the callbacks registered under `(class, routing window)`, in
registration order, and none registered under any other key. -/
theorem c1_dispatch_routing (regs : List (CBKey × Nat)) (root : Nat) (e : XEvent) :
    dispatch (registerAll regs) root e
      = (regs.filter (fun r => r.1 = (e.cls, routingWindow root e))).map (·.2)
    ∧ (e.cls = .MappingNotifyEvent → routingWindow root e = none)
    ∧ (e.cls = .MapRequestEvent → routingWindow root e = some root)
    ∧ (∀ c, e.cls = .other c →
        routingWindow root e = (e.window.orElse fun _ =>
          (e.event.orElse fun _ => (e.owner.orElse fun _ => e.requestor)))) := by
  refine ⟨registerAll_eq regs _, ?_, ?_, ?_⟩
  · intro h
    simp [routingWindow, h]
  · intro h
    simp [routingWindow, h]
  · intro c h
    simp only [routingWindow, h]
    cases e.window <;> cases e.event <;> cases e.owner <;> cases e.requestor <;>
      simp [Option.orElse]

/-- C1 witness: a MapRequest event with embedded window 7 routes to the root
window 99, firing exactly the callback registered under `(MapRequest, root)`
and not the one registered under `(MapRequest, 7)`. -/
theorem c1_dispatch_routing_witness :
    dispatch (registerAll [((EventClass.MapRequestEvent, some 7), 1),
                           ((EventClass.MapRequestEvent, some 99), 2)]) 99
      ⟨EventClass.MapRequestEvent, some 7, none, none, none⟩ = [2] := by
  rw [(c1_dispatch_routing [((EventClass.MapRequestEvent, some 7), 1),
        ((EventClass.MapRequestEvent, some 99), 2)] 99
        ⟨EventClass.MapRequestEvent, some 7, none, none, none⟩).1]
  decide

/-! ## Event queue (event.py `read` / `queue` / `peek`).

`__queue` is a `collections.deque`; the Lean list's head is the deque's left
end, so `appendleft` is `cons` and `pop` removes the last element.  The
transport is modelled by the list of events currently deliverable, in
arrival order (head = earliest). -/

/-- The non-blocking poll loop of `event.read`: `poll_for_event()` until it
returns `None`, `appendleft`-ing each delivered event. -/
def poll_drain (buf : List Nat) : List Nat → List Nat
  | [] => buf
  | e :: pending => poll_drain (e :: buf) pending

/-- `event.read(block)`: with `block=True` one blocking `wait_for_event()` is
`appendleft`-ed first (blocking forever — `none` — when nothing will ever
arrive), then the poll loop runs; with `block=False` only the poll loop
runs. -/
def read (block : Bool) (buf : List Nat) (pending : List Nat) : Option (List Nat) :=
  if block then
    match pending with
    | [] => none
    | e :: pending => some (poll_drain (e :: buf) pending)
  else some (poll_drain buf pending)

/-- `event.queue()` run to exhaustion:
`while len(__queue): yield __queue.pop()` — popping from the right (oldest)
end until the deque is empty, returning the yielded events in order. -/
def queueDrain (buf : List Nat) : List Nat :=
  if h : buf = [] then []
  else buf.getLast h :: queueDrain buf.dropLast
termination_by buf.length
decreasing_by
  have hpos : 0 < buf.length := List.length_pos.mpr h
  simp only [List.length_dropLast]
  omega

/-- `event.peek()`: `list(__queue)` — a left-to-right (newest-to-oldest) copy
of the deque, leaving the deque untouched. -/
def peek (buf : List Nat) : List Nat := buf

theorem poll_drain_eq (pending : List Nat) :
    ∀ buf, poll_drain buf pending = pending.reverse ++ buf := by
  induction pending with
  | nil => intro buf; simp [poll_drain]
  | cons e pending ih => intro buf; simp [poll_drain, ih]

theorem queueDrain_eq_reverse (buf : List Nat) : queueDrain buf = buf.reverse := by
  induction buf using List.reverseRecOn with
  | nil => rw [queueDrain]; simp
  | append_singleton l a ih =>
    rw [queueDrain]
    have hne : l ++ [a] ≠ [] := by simp
    rw [dif_neg hne]
    simp [List.getLast_append, ih]

/-- C2 counterexample: after events 1 then 2 arrive through `read(block=True)`,
the buffer is `[2, 1]`; `queue()` drains them in arrival order `[1, 2]`, but
`peek()` returns `[2, 1]` — newest first, not the oldest-first order the claim
states. -/
theorem c2_peek_counterexample :
    read true [] [1, 2] = some [2, 1] ∧ queueDrain [2, 1] = [1, 2] ∧
      peek [2, 1] = [2, 1] ∧ peek [2, 1] ≠ [1, 2] := by
  refine ⟨rfl, ?_, rfl, by decide⟩
  rw [queueDrain_eq_reverse]
  decide

/-- C2 (amended): for any sequence of events delivered by the transport
(through the blocking receive or the poll loop), the queue buffers them all;
`queue()` yields them in exactly arrival order (FIFO, oldest first, removing
each), while `peek()` returns the currently-buffered events newest-first (the
reverse of arrival order) without mutating the buffer. -/
theorem c2_fifo_amended (arrivals : List Nat) :
    (arrivals ≠ [] → read true [] arrivals = some arrivals.reverse) ∧
    read false [] arrivals = some arrivals.reverse ∧
    queueDrain arrivals.reverse = arrivals ∧
    peek arrivals.reverse = arrivals.reverse := by
  refine ⟨?_, ?_, ?_, rfl⟩
  · intro hne
    match arrivals, hne with
    | e :: rest, _ =>
      simp [read, poll_drain_eq]
  · simp [read, poll_drain_eq]
  · rw [queueDrain_eq_reverse, List.reverse_reverse]

/-- C2 witness: the amended FIFO law instantiated at the arrival sequence
`[5, 6]`. -/
theorem c2_fifo_amended_witness :
    read true [] [5, 6] = some [6, 5] ∧ queueDrain [6, 5] = [5, 6] :=
  ⟨(c2_fifo_amended [5, 6]).1 (by decide), (c2_fifo_amended [5, 6]).2.2.1⟩

/-! ## Property decoding (util.py `get_property_value`,
`PropertyCookieSingle.reply`).

A property reply carries `format` (8/16/32), the raw byte buffer `value` and
the element count `value_len`.  Python strings are modelled by their byte
sequences (`List Nat`); a Python-3 interpreter is selected by `py3 = true`
(the module supports both interpreters via its `sys.version_info` checks). -/

structure PropertyReply where
  format : Nat
  value : List Nat
  value_len : Nat
deriving DecidableEq

/-- `bytes(value).split(b'\x00')`: NUL-separated segments, like Python's
`split` always at least one (possibly empty) segment. -/
def splitNul : List Nat → List (List Nat)
  | [] => [[]]
  | b :: rest =>
    if b = 0 then [] :: splitNul rest
    else
      match splitNul rest with
      | s :: ss => (b :: s) :: ss
      | [] => [[b]]

/-- `if ret[-1] == '': ret.pop()` — under Python 3 the comparison is between
`bytes` and `str` and is therefore always `False`, so nothing is ever popped;
under Python 2 `bytes` is `str` and the empty trailing segment is dropped. -/
def dropTrailingEmpty (py3 : Bool) (segs : List (List Nat)) : List (List Nat) :=
  match segs.getLast? with
  | some last => if (if py3 then False else last = []) then segs.dropLast else segs
  | none => segs

/-- The result of `util.get_property_value`: a single Python string, a list of
strings, a list of integers, a single integer (possible after
`PropertyCookieSingle` collapses a one-element integer list), or `None`. -/
inductive PValue where
  | str (s : List Nat)
  | strs (ss : List (List Nat))
  | ints (ns : List Nat)
  | int (n : Nat)
  | none
deriving DecidableEq

/-- `util.get_property_value(property_reply)`: format 8 splits the buffer on
NUL, runs the (version-dependent) trailing-empty drop, and collapses a single
segment to a bare string; formats 16 and 32 run
`struct.unpack('I' * value_len, buf)` (`.error` models the `struct.error`
raised when the buffer is not exactly `4 * value_len` bytes); any other format
returns `None`. -/
def get_property_value (py3 : Bool) (r : PropertyReply) : Except Unit PValue :=
  if r.format = 8 then
    match dropTrailingEmpty py3 (splitNul r.value) with
    | [s] => .ok (.str s)
    | segs => .ok (.strs segs)
  else if r.format = 16 ∨ r.format = 32 then
    if r.value.length = 4 * r.value_len then .ok (.ints (unpackWords r.value))
    else .error ()
  else .ok .none

/-- Python truthiness of a `get_property_value` result. -/
def PValue.truthy : PValue → Bool
  | .str s => !s.isEmpty
  | .strs ss => !ss.isEmpty
  | .ints ns => !ns.isEmpty
  | .int n => n ≠ 0
  | .none => false

/-- `util.PropertyCookieSingle.reply()`: take `get_property_value`'s result
and, when it is a truthy one-element list, return its head. -/
def PropertyCookieSingle_reply (v : PValue) : PValue :=
  match v with
  | .strs [s] => .str s
  | .ints [n] => .int n
  | v => v

/-- C4: under Python 3, a format-8 reply ending in a NUL keeps its trailing
empty segment (`ret[-1] == ''` compares `bytes` with `str` and never fires),
so the buffer `b"abc\x00"` decodes to the two-element list `['abc', '']`;
under Python 2 the same line drops it, giving the single string `'abc'` that
the claim (and the function's own docstring) describes. -/
theorem c4_format8_trailing_nul :
    get_property_value true ⟨8, [97, 98, 99, 0], 4⟩
        = .ok (.strs [[97, 98, 99], []]) ∧
      get_property_value false ⟨8, [97, 98, 99, 0], 4⟩ = .ok (.str [97, 98, 99]) ∧
      PValue.strs [[97, 98, 99], []] ≠ PValue.str [97, 98, 99] :=
  ⟨rfl, rfl, by decide⟩

/-- C10: a format-8 reply whose (split and trailing-dropped) segment list has
exactly one segment decodes to a bare string, never a one-element list; and
`PropertyCookieSingle.reply` performs the symmetric collapse, taking the head
of any one-element list result. -/
theorem c10_single_segment_collapse :
    (∀ (py3 : Bool) (r : PropertyReply) (s : List Nat), r.format = 8 →
      dropTrailingEmpty py3 (splitNul r.value) = [s] →
      get_property_value py3 r = .ok (.str s)) ∧
    (∀ s, PropertyCookieSingle_reply (.strs [s]) = .str s) ∧
    (∀ n, PropertyCookieSingle_reply (.ints [n]) = .int n) := by
  refine ⟨?_, fun s => rfl, fun n => rfl⟩
  intro py3 r s hfmt hseg
  unfold get_property_value
  rw [if_pos hfmt, hseg]

/-- C10 witness: the collapse instantiated at the NUL-free buffer `b"abc"`
(one segment) and at the one-element lists `[['abc']]` and `[[7]]`. -/
theorem c10_single_segment_collapse_witness :
    get_property_value true ⟨8, [97, 98, 99], 3⟩ = .ok (.str [97, 98, 99]) ∧
      PropertyCookieSingle_reply (.strs [[97, 98, 99]]) = .str [97, 98, 99] ∧
      PropertyCookieSingle_reply (.ints [7]) = .int 7 :=
  ⟨c10_single_segment_collapse.1 true ⟨8, [97, 98, 99], 3⟩ [97, 98, 99] rfl (by decide),
   c10_single_segment_collapse.2.1 [97, 98, 99],
   c10_single_segment_collapse.2.2 7⟩

/-! ## Structured strut properties (ewmh.py `StrutCookie.reply`,
`StrutPartialCookie.reply`, `set_wm_strut`, `set_wm_strut_partial`).

`v = util.PropertyCookie.reply(self)` yields, for a structured (format-32)
property, either an absent value or the decoded integer list; that view is the
`Option (List Nat)` argument below.  `Except.error` models an uncaught Python
`IndexError` raised while indexing `v`. -/

structure Strut where
  left : Nat
  right : Nat
  top : Nat
  bottom : Nat
deriving DecidableEq

structure StrutPartial where
  left : Nat
  right : Nat
  top : Nat
  bottom : Nat
  left_start_y : Nat
  left_end_y : Nat
  right_start_y : Nat
  right_end_y : Nat
  top_start_x : Nat
  top_end_x : Nat
  bottom_start_x : Nat
  bottom_end_x : Nat
deriving DecidableEq

/-- `v[i]` on a Python list: the element, or an `IndexError`. -/
def pyIndex (l : List Nat) (i : Nat) : Except Unit Nat :=
  match l.get? i with
  | some x => .ok x
  | Option.none => .error ()

/-- `ewmh.StrutCookie.reply()`: `if not v: return None`, then build the dict
from `v[0] .. v[3]` (evaluated in order, the first missing index raising
`IndexError`). -/
def StrutCookie_reply (v : Option (List Nat)) : Except Unit (Option Strut) :=
  match v with
  | Option.none => .ok Option.none
  | some l =>
    if l.isEmpty then .ok Option.none
    else do
      let a ← pyIndex l 0
      let b ← pyIndex l 1
      let c ← pyIndex l 2
      let d ← pyIndex l 3
      return some ⟨a, b, c, d⟩

/-- `ewmh.StrutPartialCookie.reply()`: same shape with `v[0] .. v[11]`. -/
def StrutPartialCookie_reply (v : Option (List Nat)) : Except Unit (Option StrutPartial) :=
  match v with
  | Option.none => .ok Option.none
  | some l =>
    if l.isEmpty then .ok Option.none
    else do
      let a ← pyIndex l 0
      let b ← pyIndex l 1
      let c ← pyIndex l 2
      let d ← pyIndex l 3
      let e ← pyIndex l 4
      let f ← pyIndex l 5
      let g ← pyIndex l 6
      let h ← pyIndex l 7
      let i ← pyIndex l 8
      let j ← pyIndex l 9
      let k ← pyIndex l 10
      let m ← pyIndex l 11
      return some ⟨a, b, c, d, e, f, g, h, i, j, k, m⟩

/-- `ewmh.set_wm_strut`: `struct.pack('IIII', left, right, top, bottom)`
(`none` models the `struct.error` on an out-of-range word); the packed bytes
are sent with format 32 and element count 4. -/
def set_wm_strut_packed (s : Strut) : Option (List Nat) :=
  if [s.left, s.right, s.top, s.bottom].all (· < 2 ^ 32) then
    some (packWords [s.left, s.right, s.top, s.bottom])
  else Option.none

/-- `ewmh.set_wm_strut_partial`: `struct.pack('I' * 12, ...)` in the EWMH
field order, sent with format 32 and element count 12. -/
def StrutPartial.fields (s : StrutPartial) : List Nat :=
  [s.left, s.right, s.top, s.bottom, s.left_start_y, s.left_end_y,
   s.right_start_y, s.right_end_y, s.top_start_x, s.top_end_x,
   s.bottom_start_x, s.bottom_end_x]

def set_wm_strut_partial_packed (s : StrutPartial) : Option (List Nat) :=
  if s.fields.all (· < 2 ^ 32) then some (packWords s.fields) else Option.none

/-- C6 counterexample: a structured reply with the wrong element count is not
treated as malformed/ignored — `StrutCookie.reply` on the 2-element list
`[1, 2]` and `StrutPartialCookie.reply` on the 5-element list `[1..5]` both
index out of bounds (an uncaught `IndexError`). -/
theorem c6_short_reply_counterexample :
    StrutCookie_reply (some [1, 2]) = .error () ∧
      StrutPartialCookie_reply (some [1, 2, 3, 4, 5]) = .error () :=
  ⟨rfl, rfl⟩

/-- C6 (amended): an absent or empty reply is ignored (`None`); a reply with
at least the fixed arity decodes from its first 4 (resp. 12) elements; but a
nonempty reply with fewer elements than the fixed arity raises an uncaught
`IndexError` out of the decoded integer list instead of being treated as
malformed/ignored. -/
theorem c6_arity_amended :
    StrutCookie_reply Option.none = .ok Option.none ∧
    StrutCookie_reply (some []) = .ok Option.none ∧
    (∀ l : List Nat, l ≠ [] → l.length < 4 → StrutCookie_reply (some l) = .error ()) ∧
    (∀ l : List Nat, 4 ≤ l.length → StrutCookie_reply (some l)
        = .ok (some ⟨l.getD 0 0, l.getD 1 0, l.getD 2 0, l.getD 3 0⟩)) ∧
    StrutPartialCookie_reply Option.none = .ok Option.none ∧
    StrutPartialCookie_reply (some []) = .ok Option.none ∧
    (∀ l : List Nat, l ≠ [] → l.length < 12 → StrutPartialCookie_reply (some l) = .error ()) ∧
    (∀ l : List Nat, 12 ≤ l.length → StrutPartialCookie_reply (some l)
        = .ok (some ⟨l.getD 0 0, l.getD 1 0, l.getD 2 0, l.getD 3 0, l.getD 4 0,
                     l.getD 5 0, l.getD 6 0, l.getD 7 0, l.getD 8 0, l.getD 9 0,
                     l.getD 10 0, l.getD 11 0⟩)) := by
  refine ⟨rfl, rfl, ?_, ?_, rfl, rfl, ?_, ?_⟩
  · intro l hne hlen
    rcases l with _ | ⟨a, _ | ⟨b, _ | ⟨c, _ | ⟨d, rest⟩⟩⟩⟩
    all_goals first
      | exact absurd rfl hne
      | rfl
      | (simp only [List.length_cons] at hlen; omega)
  · intro l hlen
    rcases l with _ | ⟨a, _ | ⟨b, _ | ⟨c, _ | ⟨d, rest⟩⟩⟩⟩
    all_goals first
      | rfl
      | (simp only [List.length_cons, List.length_nil] at hlen; omega)
  · intro l hne hlen
    rcases l with _ | ⟨x0, _ | ⟨x1, _ | ⟨x2, _ | ⟨x3, _ | ⟨x4, _ | ⟨x5,
      _ | ⟨x6, _ | ⟨x7, _ | ⟨x8, _ | ⟨x9, _ | ⟨x10, _ | ⟨x11, rest⟩⟩⟩⟩⟩⟩⟩⟩⟩⟩⟩⟩
    all_goals first
      | exact absurd rfl hne
      | rfl
      | (simp only [List.length_cons] at hlen; omega)
  · intro l hlen
    rcases l with _ | ⟨x0, _ | ⟨x1, _ | ⟨x2, _ | ⟨x3, _ | ⟨x4, _ | ⟨x5,
      _ | ⟨x6, _ | ⟨x7, _ | ⟨x8, _ | ⟨x9, _ | ⟨x10, _ | ⟨x11, rest⟩⟩⟩⟩⟩⟩⟩⟩⟩⟩⟩⟩
    all_goals first
      | rfl
      | (simp only [List.length_cons, List.length_nil] at hlen; omega)

/-- C6 witness: the amended arity law instantiated at the short replies
`[1, 2]` (strut) and `[1..5]` (strut-partial) and at exact-arity replies. -/
theorem c6_arity_amended_witness :
    StrutCookie_reply (some [1, 2]) = .error () ∧
      StrutPartialCookie_reply (some [1, 2, 3, 4, 5]) = .error () ∧
      StrutCookie_reply (some [1, 2, 3, 4]) = .ok (some ⟨1, 2, 3, 4⟩) :=
  ⟨c6_arity_amended.2.2.1 [1, 2] (by decide) (by decide),
   c6_arity_amended.2.2.2.2.2.2.1 [1, 2, 3, 4, 5] (by decide) (by decide),
   c6_arity_amended.2.2.2.1 [1, 2, 3, 4] (by decide)⟩

theorem all_lt_iff (l : List Nat) :
    l.all (· < 2 ^ 32) = true ↔ ∀ w ∈ l, w < 2 ^ 32 := by
  simp [List.all_eq_true]

/-- C7: for every well-formed strut (4 unsigned 32-bit fields) and
strut-partial (12 ordered unsigned 32-bit fields), packing with
`set_wm_strut` / `set_wm_strut_partial`, decoding the stored bytes with
`get_property_value` (format 32) and then with the structured cookie's
`reply()` yields the original value. -/
theorem c7_strut_roundtrip (py3 : Bool) (s : Strut) (sp : StrutPartial)
    (hs : [s.left, s.right, s.top, s.bottom].all (· < 2 ^ 32) = true)
    (hsp : sp.fields.all (· < 2 ^ 32) = true) :
    (∃ buf, set_wm_strut_packed s = some buf ∧
      get_property_value py3 ⟨32, buf, 4⟩ = .ok (.ints [s.left, s.right, s.top, s.bottom]) ∧
      StrutCookie_reply (some [s.left, s.right, s.top, s.bottom]) = .ok (some s)) ∧
    (∃ buf, set_wm_strut_partial_packed sp = some buf ∧
      get_property_value py3 ⟨32, buf, 12⟩ = .ok (.ints sp.fields) ∧
      StrutPartialCookie_reply (some sp.fields) = .ok (some sp)) := by
  constructor
  · refine ⟨packWords [s.left, s.right, s.top, s.bottom], ?_, ?_, rfl⟩
    · unfold set_wm_strut_packed
      rw [if_pos hs]
    · have hlen : (packWords [s.left, s.right, s.top, s.bottom]).length = 4 * 4 := by
        rw [packWords_length]; rfl
      have hunp := unpackWords_packWords _ ((all_lt_iff _).mp hs)
      simp [get_property_value, hlen, hunp]
  · refine ⟨packWords sp.fields, ?_, ?_, rfl⟩
    · unfold set_wm_strut_partial_packed
      rw [if_pos hsp]
    · have hlen : (packWords sp.fields).length = 4 * 12 := by
        rw [packWords_length]; rfl
      have hunp := unpackWords_packWords _ ((all_lt_iff _).mp hsp)
      simp [get_property_value, hlen, hunp]

/-- C7 witness: the round-trip law instantiated at the strut `(1, 2, 3, 4)`
and the strut-partial `(1, .., 12)`. -/
theorem c7_strut_roundtrip_witness :
    ∃ buf, set_wm_strut_packed ⟨1, 2, 3, 4⟩ = some buf ∧
      get_property_value true ⟨32, buf, 4⟩ = .ok (.ints [1, 2, 3, 4]) ∧
      StrutCookie_reply (some [1, 2, 3, 4]) = .ok (some ⟨1, 2, 3, 4⟩) :=
  (c7_strut_roundtrip true ⟨1, 2, 3, 4⟩ ⟨1, 2, 3, 4, 5, 6, 7, 8, 9, 10, 11, 12⟩
    (by decide) (by decide)).1

/-! ## Atom cache (util.py `get_atom`, `get_atom_name`, `__get_atom_cookie`).

The X server is modelled by the pure maps `intern : String → Nat` (name to
identifier) and `atomName : Nat → String`; the state carries the two
module-level caches together with counters of the intern / atom-name requests
actually issued to the server. -/

structure AtomState where
  atom_cache : List (String × Nat)
  atom_nm_cache : List (Nat × String)
  internRequests : Nat
  nameRequests : Nat

def alookupS : List (String × Nat) → String → Option Nat
  | [], _ => Option.none
  | (k, v) :: rest, key => if key = k then some v else alookupS rest key

def alookupN : List (Nat × String) → Nat → Option String
  | [], _ => Option.none
  | (k, v) :: rest, key => if key = k then some v else alookupN rest key

/-- `util.get_atom(atom_name)`:
`__atom_cache.setdefault(atom_name, __get_atom_cookie(atom_name).reply())`.
Python evaluates `setdefault`'s default argument before the lookup, so the
`InternAtomUnchecked` request is issued — and its reply awaited — on every
call, cached or not; only on a miss is the fresh identifier stored. -/
def get_atom (intern : String → Nat) (atom_name : String) (st : AtomState) :
    Nat × AtomState :=
  let fresh := intern atom_name
  let st1 := { st with internRequests := st.internRequests + 1 }
  match alookupS st1.atom_cache atom_name with
  | some a => (a, st1)
  | Option.none => (fresh, { st1 with atom_cache := st1.atom_cache ++ [(atom_name, fresh)] })

/-- `util.get_atom_name(atom)`:
`__atom_nm_cache.setdefault(atom, __get_atom_name_cookie(atom).reply())` — the
same eager-default shape, issuing a `GetAtomNameUnchecked` request on every
call.  Note that `get_atom` populates only `__atom_cache`; nothing but
`build_atom_cache` ever fills `__atom_nm_cache`. -/
def get_atom_name (atomName : Nat → String) (a : Nat) (st : AtomState) :
    String × AtomState :=
  let fresh := atomName a
  let st1 := { st with nameRequests := st.nameRequests + 1 }
  match alookupN st1.atom_nm_cache a with
  | some nm => (nm, st1)
  | Option.none => (fresh, { st1 with atom_nm_cache := st1.atom_nm_cache ++ [(a, fresh)] })

def initAtomState : AtomState := ⟨[], [], 0, 0⟩

/-- C5: resolving the same atom name twice does NOT stay within one intern
request — `setdefault`'s default argument is evaluated eagerly, so each
`get_atom` call issues (and blocks on) an `InternAtomUnchecked` request even
when the name is already cached; and `get_atom` never fills the reverse cache,
so `get_atom_name` on the returned identifier issues a further
`GetAtomNameUnchecked` request.  With a server interning `"_NET_WM_NAME"` as
atom 317: two `get_atom` calls issue 2 intern requests (the claim allows at
most 1), and the follow-up `get_atom_name` issues 1 request (the claim allows
0). -/
theorem c5_atom_cache_eager_requests :
    (get_atom (fun _ => 317) "_NET_WM_NAME"
        (get_atom (fun _ => 317) "_NET_WM_NAME" initAtomState).2).2.internRequests = 2 ∧
    (get_atom_name (fun _ => "_NET_WM_NAME") 317
        (get_atom (fun _ => 317) "_NET_WM_NAME"
          (get_atom (fun _ => 317) "_NET_WM_NAME" initAtomState).2).2).2.nameRequests = 1 ∧
    (get_atom (fun _ => 317) "_NET_WM_NAME"
        (get_atom (fun _ => 317) "_NET_WM_NAME" initAtomState).2).1 = 317 := by
  refine ⟨rfl, ?_, rfl⟩
  rfl

/-! ## Server-side key grabs (keybind.py `grab_key`, `TRIVIAL_MODS`). -/

/-- `keybind.TRIVIAL_MODS`: no modifier (0), `Lock` (2), `Mod2`/NumLock (16),
and both (18). -/
def TRIVIAL_MODS : List Nat := [0, 2, 16, 18]

/-- The `for mod in TRIVIAL_MODS` loop of `keybind.grab_key`: issue
`GrabKeyChecked(True, wid, modifiers | mod, key, Async, Async).check()` for
each trivial modifier in order inside one `try`; a `BadAccess` error aborts
the loop and the handler returns `False`.  `fails m` says whether the server
refuses the grab for effective modifier mask `m`; `acc` accumulates the
server-side grabs acquired so far, which are never released on failure. -/
def grab_key_go (fails : Nat → Bool) (wid mods key : Nat) :
    List Nat → List (Nat × Nat × Nat) → Bool × List (Nat × Nat × Nat)
  | [], acc => (true, acc)
  | m :: rest, acc =>
    if fails (mods ||| m) then (false, acc)
    else grab_key_go fails wid mods key rest (acc ++ [(wid, mods ||| m, key)])

/-- `keybind.grab_key(wid, modifiers, key)`: the Boolean result together with
the server-side grabs held when it returns. -/
def grab_key (fails : Nat → Bool) (wid mods key : Nat) : Bool × List (Nat × Nat × Nat) :=
  grab_key_go fails wid mods key TRIVIAL_MODS []

/-- C9 counterexample: when the server refuses only the fourth variant
(`mods | 18`), `grab_key` reports `False` but the three variant grabs already
acquired stay held — a partial set of server-side grabs survives the `False`
return, with no rollback. -/
theorem c9_no_rollback_counterexample :
    grab_key (fun m => m == 18) 7 0 44
        = (false, [(7, 0, 44), (7, 2, 44), (7, 16, 44)]) ∧
      [(7, 0, 44), (7, 2, 44), (7, 16, 44)] ≠ ([] : List (Nat × Nat × Nat)) := by
  exact ⟨rfl, by decide⟩

/-- C9 (amended): `grab_key` is not atomic and performs no rollback — if the
server refuses the grab at the `i`-th trivial-modifier variant after granting
the earlier ones, `grab_key` returns `False` while exactly the grabs for the
variants before `i` remain held; when every variant is granted it returns
`True` holding all four. -/
theorem c9_partial_failure_amended (fails : Nat → Bool) (wid mods key : Nat) :
    (∀ i, i < 4 → fails (mods ||| TRIVIAL_MODS.getD i 0) = true →
      (∀ j, j < i → fails (mods ||| TRIVIAL_MODS.getD j 0) = false) →
      grab_key fails wid mods key
        = (false, (TRIVIAL_MODS.take i).map (fun m => (wid, mods ||| m, key)))) ∧
    ((∀ m ∈ TRIVIAL_MODS, fails (mods ||| m) = false) →
      grab_key fails wid mods key
        = (true, TRIVIAL_MODS.map (fun m => (wid, mods ||| m, key)))) := by
  have e0 : TRIVIAL_MODS.getD 0 0 = 0 := rfl
  have e1 : TRIVIAL_MODS.getD 1 0 = 2 := rfl
  have e2 : TRIVIAL_MODS.getD 2 0 = 16 := rfl
  have e3 : TRIVIAL_MODS.getD 3 0 = 18 := rfl
  constructor
  · intro i hi hfail hpre
    interval_cases i
    · rw [e0, Nat.or_zero] at hfail
      simp [grab_key, grab_key_go, TRIVIAL_MODS, hfail]
    · have h0 := hpre 0 (by omega)
      rw [e0, Nat.or_zero] at h0
      rw [e1] at hfail
      simp [grab_key, grab_key_go, TRIVIAL_MODS, h0, hfail]
    · have h0 := hpre 0 (by omega)
      have h1 := hpre 1 (by omega)
      rw [e0, Nat.or_zero] at h0
      rw [e1] at h1
      rw [e2] at hfail
      simp [grab_key, grab_key_go, TRIVIAL_MODS, h0, h1, hfail]
    · have h0 := hpre 0 (by omega)
      have h1 := hpre 1 (by omega)
      have h2 := hpre 2 (by omega)
      rw [e0, Nat.or_zero] at h0
      rw [e1] at h1
      rw [e2] at h2
      rw [e3] at hfail
      simp [grab_key, grab_key_go, TRIVIAL_MODS, h0, h1, h2, hfail]
  · intro hall
    have h0 := hall 0 (by decide)
    rw [Nat.or_zero] at h0
    have h1 := hall 2 (by decide)
    have h2 := hall 16 (by decide)
    have h3 := hall 18 (by decide)
    simp [grab_key, grab_key_go, TRIVIAL_MODS, h0, h1, h2, h3]

/-- C9 witness: the amended no-rollback law instantiated at a server refusing
only the `mods | 18` variant (failure index 3). -/
theorem c9_partial_failure_amended_witness :
    grab_key (fun m => m == 18) 7 0 44
      = (false, (TRIVIAL_MODS.take 3).map (fun m => (7, 0 ||| m, 44))) :=
  (c9_partial_failure_amended (fun m => m == 18) 7 0 44).1 3 (by decide) (by decide)
    (fun j hj => by interval_cases j <;> decide)

/-! ## Grab-refcounted key binding (keybind.py `bind_key`, `__keygrabs`).

A binding key is the `(wid, modifiers, keycode)` triple `bind_key` builds
after `parse_keystring`.  The state carries `__keygrabs` (the per-key grab
reference counts, Python integers, so `Int`), `__keybinds` (the per-key
callback lists), the set of server-side grabs currently held, and counters of
grab / ungrab request sequences issued to the server. -/

abbrev BindKey := Nat × Nat × Nat

def alookup {α β : Type} [DecidableEq α] : List (α × β) → α → Option β
  | [], _ => Option.none
  | (k, v) :: rest, key => if key = k then some v else alookup rest key

def setAssoc {α β : Type} [DecidableEq α] : List (α × β) → α → β → List (α × β)
  | [], key, v => [(key, v)]
  | (k, w) :: rest, key, v =>
    if key = k then (k, v) :: rest else (k, w) :: setAssoc rest key v

structure KeybindState where
  keygrabs : List (BindKey × Int)
  keybinds : List (BindKey × List Nat)
  grabbed : List BindKey
  grabsIssued : Nat
  ungrabsIssued : Nat

/-- `__keygrabs[key]` — `defaultdict(int)` reads as 0 when absent. -/
def grabCount (st : KeybindState) (k : BindKey) : Int :=
  (alookup st.keygrabs k).getD 0

/-- `__keybinds[key].append(cb)` — `defaultdict(list)` append. -/
def appendToKey : List (BindKey × List Nat) → BindKey → Nat → List (BindKey × List Nat)
  | [], k, cb => [(k, [cb])]
  | (k', cbs) :: rest, k, cb =>
    if k = k' then (k', cbs ++ [cb]) :: rest else (k', cbs) :: appendToKey rest k cb

def insertGrab (l : List BindKey) (k : BindKey) : List BindKey :=
  if k ∈ l then l else k :: l

def removeGrab (l : List BindKey) (k : BindKey) : List BindKey :=
  l.filter (fun x => x ≠ k)

/-- `keybind.bind_key(event_type, wid, key_string, cb)` after
`parse_keystring` has produced a valid `(mods, kc)` pair:
`if not __keygrabs[key] and not grab_key(wid, mods, kc): return False`
(short-circuit: `grab_key` runs only when the count is zero), then
`__keybinds[key].append(cb)` and `__keygrabs[key] += 1`.  `grabOk` is the
result `grab_key` would report; its per-variant internals are modelled by
`grab_key` above. -/
def bind_key (grabOk : Bool) (k : BindKey) (cb : Nat) (st : KeybindState) :
    Bool × KeybindState :=
  if grabCount st k = 0 ∧ grabOk = false then (false, st)
  else
    let st1 :=
      if grabCount st k = 0 then
        { st with grabbed := insertGrab st.grabbed k, grabsIssued := st.grabsIssued + 1 }
      else st
    (true, { st1 with
              keybinds := appendToKey st1.keybinds k cb,
              keygrabs := setAssoc st1.keygrabs k (grabCount st1 k + 1) })

/-- Modelled from the spec: keybind.py defines no unbind primitive — only
`bind_key` and the `__keygrabs` counts exist in the source.  §4.6 prescribes
the transition `Grabbed(refcount=N) → Grabbed(refcount=N-1)` on unbind, with
the server-side ungrab issued exactly when the count reaches 0, and no
transition out of `Ungrabbed`. -/
def unbind_key (k : BindKey) (st : KeybindState) : KeybindState :=
  let c := grabCount st k
  if c ≤ 0 then st
  else
    let st1 := { st with keygrabs := setAssoc st.keygrabs k (c - 1) }
    if c - 1 = 0 then
      { st1 with grabbed := removeGrab st1.grabbed k,
                 ungrabsIssued := st1.ungrabsIssued + 1 }
    else st1

inductive KbOp where
  | bind (grabOk : Bool) (k : BindKey) (cb : Nat)
  | unbind (k : BindKey)

def stepOp (st : KeybindState) : KbOp → KeybindState
  | .bind g k cb => (bind_key g k cb st).2
  | .unbind k => unbind_key k st

def initKeybindState : KeybindState := ⟨[], [], [], 0, 0⟩

def runOps (ops : List KbOp) : KeybindState := ops.foldl stepOp initKeybindState

/-- The C8 invariant: every grab count is nonnegative, and a nonzero count
means the server-side grab is currently held. -/
def GoodState (st : KeybindState) : Prop :=
  ∀ k, 0 ≤ grabCount st k ∧ (grabCount st k ≠ 0 → k ∈ st.grabbed)

theorem alookup_setAssoc {α β : Type} [DecidableEq α]
    (l : List (α × β)) (k k' : α) (v : β) :
    alookup (setAssoc l k v) k' = if k' = k then some v else alookup l k' := by
  induction l with
  | nil =>
    by_cases h : k' = k
    · simp [setAssoc, alookup, h]
    · simp [setAssoc, alookup, h]
  | cons kv rest ih =>
    obtain ⟨k0, v0⟩ := kv
    by_cases hk : k = k0
    · subst hk
      by_cases h : k' = k
      · simp [setAssoc, alookup, h]
      · simp [setAssoc, alookup, h]
    · by_cases h : k' = k0
      · subst h
        have hne : ¬ k' = k := fun hh => hk hh.symm
        simp [setAssoc, alookup, hk, hne]
      · simp [setAssoc, alookup, hk, h, ih]

theorem grabCount_set (st : KeybindState) (k k' : BindKey) (v : Int)
    (grabbed : List BindKey) (kb : List (BindKey × List Nat)) (g u : Nat) :
    grabCount ⟨setAssoc st.keygrabs k v, kb, grabbed, g, u⟩ k'
      = if k' = k then v else grabCount st k' := by
  unfold grabCount
  simp only [alookup_setAssoc]
  by_cases h : k' = k <;> simp [h]

theorem mem_insertGrab (l : List BindKey) (k x : BindKey) (h : x ∈ l) :
    x ∈ insertGrab l k := by
  unfold insertGrab
  by_cases hk : k ∈ l <;> simp [hk, h]

theorem mem_insertGrab_self (l : List BindKey) (k : BindKey) : k ∈ insertGrab l k := by
  unfold insertGrab
  by_cases hk : k ∈ l <;> simp [hk]

theorem mem_removeGrab (l : List BindKey) (k x : BindKey) (h : x ∈ l) (hne : x ≠ k) :
    x ∈ removeGrab l k := by
  unfold removeGrab
  simp [List.mem_filter, h, hne]

theorem bind_key_id (g : Bool) (k : BindKey) (cb : Nat) (st : KeybindState)
    (h : grabCount st k = 0 ∧ g = false) : (bind_key g k cb st).2 = st := by
  unfold bind_key
  rw [if_pos h]

theorem bind_key_keygrabs (g : Bool) (k : BindKey) (cb : Nat) (st : KeybindState)
    (h : ¬ (grabCount st k = 0 ∧ g = false)) :
    (bind_key g k cb st).2.keygrabs = setAssoc st.keygrabs k (grabCount st k + 1) := by
  unfold bind_key
  rw [if_neg h]
  by_cases hc : grabCount st k = 0
  · simp only [if_pos hc]
    rfl
  · simp only [if_neg hc]

theorem bind_key_grabbed (g : Bool) (k : BindKey) (cb : Nat) (st : KeybindState)
    (h : ¬ (grabCount st k = 0 ∧ g = false)) :
    (bind_key g k cb st).2.grabbed
      = if grabCount st k = 0 then insertGrab st.grabbed k else st.grabbed := by
  unfold bind_key
  rw [if_neg h]
  by_cases hc : grabCount st k = 0
  · simp only [if_pos hc]
  · simp only [if_neg hc]

theorem good_bind (st : KeybindState) (g : Bool) (k : BindKey) (cb : Nat)
    (hst : GoodState st) : GoodState (bind_key g k cb st).2 := by
  by_cases h : grabCount st k = 0 ∧ g = false
  · rw [bind_key_id g k cb st h]
    exact hst
  · intro k'
    have hcnt : grabCount (bind_key g k cb st).2 k'
        = if k' = k then grabCount st k + 1 else grabCount st k' := by
      unfold grabCount
      rw [bind_key_keygrabs g k cb st h, alookup_setAssoc]
      by_cases hk : k' = k <;> simp [hk, grabCount]
    rw [hcnt, bind_key_grabbed g k cb st h]
    by_cases hk : k' = k
    · subst hk
      rw [if_pos rfl]
      by_cases hc : grabCount st k' = 0
      · rw [if_pos hc, hc]
        exact ⟨by omega, fun _ => mem_insertGrab_self _ _⟩
      · rw [if_neg hc]
        have h1 := (hst k').1
        exact ⟨by omega, fun _ => (hst k').2 hc⟩
    · rw [if_neg hk]
      refine ⟨(hst k').1, fun hnz => ?_⟩
      by_cases hc : grabCount st k = 0
      · rw [if_pos hc]
        exact mem_insertGrab _ _ _ ((hst k').2 hnz)
      · rw [if_neg hc]
        exact (hst k').2 hnz

theorem unbind_key_id (k : BindKey) (st : KeybindState)
    (h : grabCount st k ≤ 0) : unbind_key k st = st := by
  unfold unbind_key
  rw [if_pos h]

theorem unbind_key_keygrabs (k : BindKey) (st : KeybindState)
    (h : ¬ grabCount st k ≤ 0) :
    (unbind_key k st).keygrabs = setAssoc st.keygrabs k (grabCount st k - 1) := by
  unfold unbind_key
  rw [if_neg h]
  by_cases hz : grabCount st k - 1 = 0
  · simp only [if_pos hz]
  · simp only [if_neg hz]

theorem unbind_key_grabbed (k : BindKey) (st : KeybindState)
    (h : ¬ grabCount st k ≤ 0) :
    (unbind_key k st).grabbed
      = if grabCount st k - 1 = 0 then removeGrab st.grabbed k else st.grabbed := by
  unfold unbind_key
  rw [if_neg h]
  by_cases hz : grabCount st k - 1 = 0
  · simp only [if_pos hz]
  · simp only [if_neg hz]

theorem good_unbind (st : KeybindState) (k : BindKey)
    (hst : GoodState st) : GoodState (unbind_key k st) := by
  by_cases h : grabCount st k ≤ 0
  · rw [unbind_key_id k st h]
    exact hst
  · intro k'
    have hcnt : grabCount (unbind_key k st) k'
        = if k' = k then grabCount st k - 1 else grabCount st k' := by
      unfold grabCount
      rw [unbind_key_keygrabs k st h, alookup_setAssoc]
      by_cases hk : k' = k <;> simp [hk, grabCount]
    rw [hcnt, unbind_key_grabbed k st h]
    by_cases hk : k' = k
    · subst hk
      rw [if_pos rfl]
      refine ⟨by omega, fun hnz => ?_⟩
      rw [if_neg hnz]
      exact (hst k').2 (by omega)
    · rw [if_neg hk]
      refine ⟨(hst k').1, fun hnz => ?_⟩
      by_cases hz : grabCount st k - 1 = 0
      · rw [if_pos hz]
        exact mem_removeGrab _ _ _ ((hst k').2 hnz) hk
      · rw [if_neg hz]
        exact (hst k').2 hnz

theorem good_runOps_go (ops : List KbOp) :
    ∀ st, GoodState st → GoodState (ops.foldl stepOp st) := by
  induction ops with
  | nil => intro st h; exact h
  | cons op ops ih =>
    intro st h
    refine ih _ ?_
    cases op with
    | bind g k cb => exact good_bind st g k cb h
    | unbind k => exact good_unbind st k h

/-- C8: the grab reference count is always ≥ 0 and a nonzero count implies the
server-side grab is held, over every sequence of bind/unbind operations; and
in the two-binds-two-unbinds scenario on one accelerator the grab is issued
exactly once at the first bind (count 1 → 2 with no second grab), survives the
first unbind (count 1, still held, no ungrab), and is released with exactly
one ungrab at the second unbind (count 0). -/
theorem c8_grab_refcount :
    (∀ ops : List KbOp, GoodState (runOps ops)) ∧
    (grabCount (runOps [.bind true (7, 64, 44) 1, .bind true (7, 64, 44) 2]) (7, 64, 44) = 2 ∧
     (runOps [.bind true (7, 64, 44) 1, .bind true (7, 64, 44) 2]).grabsIssued = 1) ∧
    (grabCount (runOps [.bind true (7, 64, 44) 1, .bind true (7, 64, 44) 2,
        .unbind (7, 64, 44)]) (7, 64, 44) = 1 ∧
     (7, 64, 44) ∈ (runOps [.bind true (7, 64, 44) 1, .bind true (7, 64, 44) 2,
        .unbind (7, 64, 44)]).grabbed ∧
     (runOps [.bind true (7, 64, 44) 1, .bind true (7, 64, 44) 2,
        .unbind (7, 64, 44)]).ungrabsIssued = 0) ∧
    (grabCount (runOps [.bind true (7, 64, 44) 1, .bind true (7, 64, 44) 2,
        .unbind (7, 64, 44), .unbind (7, 64, 44)]) (7, 64, 44) = 0 ∧
     (7, 64, 44) ∉ (runOps [.bind true (7, 64, 44) 1, .bind true (7, 64, 44) 2,
        .unbind (7, 64, 44), .unbind (7, 64, 44)]).grabbed ∧
     (runOps [.bind true (7, 64, 44) 1, .bind true (7, 64, 44) 2,
        .unbind (7, 64, 44), .unbind (7, 64, 44)]).ungrabsIssued = 1 ∧
     (runOps [.bind true (7, 64, 44) 1, .bind true (7, 64, 44) 2,
        .unbind (7, 64, 44), .unbind (7, 64, 44)]).grabsIssued = 1) := by
  refine ⟨fun ops => good_runOps_go ops initKeybindState ?_, ?_⟩
  · intro k
    exact ⟨le_refl 0, fun h => absurd rfl h⟩
  · refine ⟨⟨?_, ?_⟩, ⟨?_, ?_, ?_⟩, ?_, ?_, ?_, ?_⟩ <;> decide

/-- C8 witness: the invariant instantiated after the concrete operation
sequence bind-bind-unbind on the accelerator `(7, 64, 44)`: the count is
nonnegative and, being nonzero there, the grab is held. -/
theorem c8_grab_refcount_witness :
    0 ≤ grabCount (runOps [.bind true (7, 64, 44) 1, .bind true (7, 64, 44) 2,
        .unbind (7, 64, 44)]) (7, 64, 44) :=
  (c8_grab_refcount.1 [.bind true (7, 64, 44) 1, .bind true (7, 64, 44) 2,
      .unbind (7, 64, 44)] (7, 64, 44)).1

end Xpybutil
